import Mathlib

/-
Verification of the crawl-job orchestration engine of nrad-K/go-crawler.

The development shallowly embeds the Go source:
  internal/domain/model/crawl_job.go      (CrawlJob, NewCrawlJob, Reconstruct, ChangeStatus)
  internal/infra/crawl_job_client.go      (Save, Delete, Exists, generate*JobKey)
  internal/usecase/crawler.go             (generateCrawlJobUseCase, executeCrawlJobUseCase)

External collaborators are modelled as follows.
  - The Redis key space is a finite association list from key strings to stored
    records; SET overwrites the key, DEL removes it, EXISTS tests membership.
  - Go net/url (Parse, ParseRequestURI, URL.String, URL.ResolveReference,
    url.Values) is embedded following the Go standard library source, with
    percent-escaping modelled as the identity (inputs in this development
    contain no percent escapes, and escaping does not affect any proved
    property).  resolvePath is translated in its segment-list formulation,
    which is extensionally the published behaviour of the builder-based one.
  - github.com/google/uuid Parse and String are embedded over byte lists.
  - The browser client is an oracle recording, per URL or artifact name,
    whether Navigate / GetHTML / SaveHTML succeed.
-/

/-! ## Character and list-of-character helpers -/

def isAsciiAlpha (c : Char) : Bool :=
  ('a' ≤ c ∧ c ≤ 'z') ∨ ('A' ≤ c ∧ c ≤ 'Z')

def isAsciiDigit (c : Char) : Bool :=
  '0' ≤ c ∧ c ≤ '9'

def asciiLower (c : Char) : Char :=
  if 'A' ≤ c ∧ c ≤ 'Z' then Char.ofNat (c.toNat + 32) else c

def lowerStr (s : String) : String :=
  String.mk (s.data.map asciiLower)

/-- Split a character list at the first occurrence of a character:
returns (before, after, found), mirroring strings.Cut with a one-byte separator. -/
def listCut (c : Char) : List Char → (List Char × List Char × Bool)
  | [] => ([], [], false)
  | x :: xs =>
    if x = c then ([], xs, true)
    else
      let r := listCut c xs
      (x :: r.1, r.2.1, r.2.2)

def strCut (s : String) (c : Char) : String × String × Bool :=
  let r := listCut c s.data
  (String.mk r.1, String.mk r.2.1, r.2.2)

def listContains (c : Char) (s : List Char) : Bool :=
  s.any (fun x => x = c)

def strContains (s : String) (c : Char) : Bool :=
  listContains c s.data

/-- Split at the last occurrence of a character: returns (before, after) if present. -/
def lastSplit (c : Char) (s : List Char) : Option (List Char × List Char) :=
  let r := listCut c s.reverse
  if r.2.2 then some (r.2.1.reverse, r.1.reverse) else none

def strStartsWithCh (s : String) (c : Char) : Bool :=
  match s.data with
  | [] => false
  | x :: _ => x = c

def strEndsWithCh (s : String) (c : Char) : Bool :=
  match s.data.reverse with
  | [] => false
  | x :: _ => x = c

def listIsPre (p s : List Char) : Bool :=
  match p, s with
  | [], _ => true
  | _ :: _, [] => false
  | a :: ps, b :: ss => a = b ∧ listIsPre ps ss

def strStartsWithStr (s p : String) : Bool :=
  listIsPre p.data s.data

/-! ## Go net/url model

URL record, after net/url's URL struct; RawPath and RawFragment are omitted
because escaping is modelled as the identity. -/

structure GoURL where
  scheme : String
  opq : String
  user : Option String
  host : String
  path : String
  omitHost : Bool
  forceQuery : Bool
  rawQuery : String
  fragment : String
deriving DecidableEq, Repr

def emptyGoURL : GoURL :=
  { scheme := "", opq := "", user := none, host := "", path := ""
    omitHost := false, forceQuery := false, rawQuery := "", fragment := "" }

/-- net/url stringContainsCTLByte. -/
def containsCTLByte (s : String) : Bool :=
  s.data.any (fun c => c.toNat < 0x20 ∨ c.toNat = 0x7f)

/-- net/url getScheme, iterating over the raw string; the Bool argument is
"at index 0". On a colon after at least one alphanumeric character the scheme
and remainder are returned; a leading colon is an error; any other terminator
means there is no scheme. -/
def getSchemeAux (raw : String) : List Char → List Char → Bool → Except String (String × String)
  | [], _, _ => .ok ("", raw)
  | c :: rest, acc, first =>
    if isAsciiAlpha c then
      getSchemeAux raw rest (c :: acc) false
    else if isAsciiDigit c ∨ c = '+' ∨ c = '-' ∨ c = '.' then
      if first then .ok ("", raw) else getSchemeAux raw rest (c :: acc) false
    else if c = ':' then
      if first then .error "missing protocol scheme"
      else .ok (String.mk acc.reverse, String.mk rest)
    else .ok ("", raw)

def getSchemeGo (raw : String) : Except String (String × String) :=
  getSchemeAux raw raw.data [] true

/-- net/url validOptionalPort. -/
def validOptionalPort (port : String) : Bool :=
  match port.data with
  | [] => true
  | c :: rest => c = ':' ∧ rest.all isAsciiDigit

/-- Characters net/url's shouldEscape admits unescaped in a host
(alphanumerics, RFC 3986 unreserved marks, sub-delims and :[]<>");
non-ASCII bytes pass through, and percent signs are admitted because
escaping is modelled as the identity. -/
def hostCharOk (c : Char) : Bool :=
  isAsciiAlpha c ∨ isAsciiDigit c ∨
  c = '-' ∨ c = '_' ∨ c = '.' ∨ c = '~' ∨
  c = '!' ∨ c = '$' ∨ c = '&' ∨ c = '\'' ∨ c = '(' ∨ c = ')' ∨
  c = '*' ∨ c = '+' ∨ c = ',' ∨ c = ';' ∨ c = '=' ∨
  c = ':' ∨ c = '[' ∨ c = ']' ∨ c = '<' ∨ c = '>' ∨ c = '"' ∨
  c = '%' ∨ c.toNat ≥ 0x80

/-- net/url parseHost: bracketed hosts need a closing bracket and a valid
optional port after it; otherwise the part after the last colon must be a
valid port; finally every character must be admissible in a host. -/
def parseHostGo (host : String) : Except String String :=
  if strStartsWithCh host '[' then
    match lastSplit ']' host.data with
    | none => .error "missing right bracket in host"
    | some (_, afterBr) =>
      if validOptionalPort (String.mk afterBr) then
        if host.data.all hostCharOk then .ok host else .error "invalid character in host name"
      else .error "invalid port after host"
  else
    match lastSplit ':' host.data with
    | some (_, afterC) =>
      if validOptionalPort (String.mk (':' :: afterC)) then
        if host.data.all hostCharOk then .ok host else .error "invalid character in host name"
      else .error "invalid port after host"
    | none =>
      if host.data.all hostCharOk then .ok host else .error "invalid character in host name"

/-- net/url validUserinfo. -/
def validUserinfo (s : String) : Bool :=
  s.data.all (fun c =>
    isAsciiAlpha c ∨ isAsciiDigit c ∨
    c = '-' ∨ c = '.' ∨ c = '_' ∨ c = ':' ∨ c = '~' ∨ c = '!' ∨ c = '$' ∨
    c = '&' ∨ c = '\'' ∨ c = '(' ∨ c = ')' ∨ c = '*' ∨ c = '+' ∨
    c = ',' ∨ c = ';' ∨ c = '=' ∨ c = '%' ∨ c = '@')

/-- net/url parseAuthority: userinfo is everything before the last at sign. -/
def parseAuthorityGo (authority : String) : Except String (Option String × String) :=
  match lastSplit '@' authority.data with
  | none =>
    match parseHostGo authority with
    | .error e => .error e
    | .ok h => .ok (none, h)
  | some (userinfo, hostPart) =>
    match parseHostGo (String.mk hostPart) with
    | .error e => .error e
    | .ok h =>
      if validUserinfo (String.mk userinfo) then .ok (some (String.mk userinfo), h)
      else .error "net/url: invalid userinfo"

/-- net/url parse(rawURL, viaRequest), with setPath as the identity on the
path text. -/
def parseGo (rawURL : String) (viaRequest : Bool) : Except String GoURL :=
  if containsCTLByte rawURL then .error "net/url: invalid control character in URL"
  else if rawURL = "" ∧ viaRequest then .error "empty url"
  else if rawURL = "*" then .ok { emptyGoURL with path := "*" }
  else
    match getSchemeGo rawURL with
    | .error e => .error e
    | .ok (scheme0, rest0) =>
      let scheme := lowerStr scheme0
      let qcut :=
        if strEndsWithCh rest0 '?' ∧ ¬ strContains (String.mk rest0.data.dropLast) '?' then
          (String.mk rest0.data.dropLast, "", true)
        else
          let r := strCut rest0 '?'
          (r.1, r.2.1, false)
      let rest1 := qcut.1
      let rawQuery := qcut.2.1
      let forceQuery := qcut.2.2
      if ¬ strStartsWithCh rest1 '/' ∧ scheme ≠ "" then
        .ok { emptyGoURL with scheme := scheme, opq := rest1,
                              forceQuery := forceQuery, rawQuery := rawQuery }
      else if ¬ strStartsWithCh rest1 '/' ∧ viaRequest then
        .error "invalid URI for request"
      else if ¬ strStartsWithCh rest1 '/' ∧ strContains (strCut rest1 '/').1 ':' then
        .error "first path segment in URL cannot contain colon"
      else
        if (scheme ≠ "" ∨ (¬ viaRequest ∧ ¬ strStartsWithStr rest1 "///")) ∧
            strStartsWithStr rest1 "//" then
          let afterSlashes := String.mk (rest1.data.drop 2)
          let acut := strCut afterSlashes '/'
          let authority := if acut.2.2 then acut.1 else afterSlashes
          let rest2 := if acut.2.2 then String.mk ('/' :: acut.2.1.data) else ""
          match parseAuthorityGo authority with
          | .error e => .error e
          | .ok (user, host) =>
            .ok { emptyGoURL with scheme := scheme, user := user, host := host,
                                  path := rest2, forceQuery := forceQuery,
                                  rawQuery := rawQuery }
        else
          let omitH := scheme ≠ "" ∧ strStartsWithCh rest1 '/'
          .ok { emptyGoURL with scheme := scheme, path := rest1, omitHost := omitH,
                                forceQuery := forceQuery, rawQuery := rawQuery }

/-- net/url Parse: cut the fragment at the first hash, parse the rest with
viaRequest = false, then set the fragment (identity escaping). -/
def urlParse (rawURL : String) : Except String GoURL :=
  let fcut := strCut rawURL '#'
  match parseGo fcut.1 false with
  | .error e => .error e
  | .ok u =>
    if fcut.2.1 = "" then .ok u
    else .ok { u with fragment := fcut.2.1 }

/-- net/url ParseRequestURI. -/
def parseRequestURI (rawURL : String) : Except String GoURL :=
  parseGo rawURL true

def isAbs (u : GoURL) : Bool :=
  u.scheme ≠ ""

/-- net/url URL.String, with EscapedPath/EscapedFragment as the identity. -/
def urlToString (u : GoURL) : String :=
  let schemePart := if u.scheme ≠ "" then u.scheme ++ ":" else ""
  let core :=
    if u.opq ≠ "" then schemePart ++ u.opq
    else
      let authorityPart :=
        if u.scheme ≠ "" ∨ u.host ≠ "" ∨ u.user.isSome then
          if u.omitHost ∧ u.host = "" ∧ u.user = none then ""
          else
            (if u.host ≠ "" ∨ u.path ≠ "" ∨ u.user.isSome then "//" else "") ++
            (match u.user with
             | some ui => ui ++ "@"
             | none => "") ++
            u.host
        else ""
      let base := schemePart ++ authorityPart
      let base :=
        if u.path ≠ "" ∧ ¬ strStartsWithCh u.path '/' ∧ u.host ≠ "" then base ++ "/"
        else base
      if base = "" ∧ strContains (strCut u.path '/').1 ':' then "./" ++ u.path
      else base ++ u.path
  core ++
  (if u.forceQuery ∨ u.rawQuery ≠ "" then "?" ++ u.rawQuery else "") ++
  (if u.fragment ≠ "" then "#" ++ u.fragment else "")

/-! ## net/url resolvePath and ResolveReference -/

/-- Dot-segment elimination pass of net/url resolvePath: "." is dropped,
".." pops the last kept segment (if any), everything else is kept. -/
def resolvePathSegs : List String → List String → List String
  | dst, [] => dst
  | dst, e :: rest =>
    if e = "." then resolvePathSegs dst rest
    else if e = ".." then resolvePathSegs dst.dropLast rest
    else resolvePathSegs (dst ++ [e]) rest

/-- Split a character list on every occurrence of a character
(strings.Split with a one-byte separator); the result is never empty. -/
def listSplit (c : Char) : List Char → List (List Char)
  | [] => [[]]
  | x :: xs =>
    match listSplit c xs with
    | [] => [[]]
    | h :: t => if x = c then [] :: h :: t else (x :: h) :: t

/-- net/url resolvePath in its segment-list formulation: merge ref into the
base path's directory, eliminate dot segments, restore a trailing slash when
the last segment was "." or "..", and force a leading slash. -/
def resolvePathGo (base ref : String) : String :=
  let full :=
    if ref = "" then base
    else if ¬ strStartsWithCh ref '/' then
      match lastSplit '/' base.data with
      | some (pre, _) => String.mk pre ++ "/" ++ ref
      | none => ref
    else ref
  if full = "" then ""
  else
    let src := (listSplit '/' full.data).map String.mk
    let dst := resolvePathSegs [] src
    let lastE := src.getLastD ""
    let dst := if lastE = "." ∨ lastE = ".." then dst ++ [""] else dst
    let joined := String.intercalate "/" dst
    "/" ++ (if strStartsWithCh joined '/' then String.mk (joined.data.drop 1) else joined)

/-- net/url URL.ResolveReference (identity escaping). -/
def resolveReference (u ref : GoURL) : GoURL :=
  let url1 := if ref.scheme = "" then { ref with scheme := u.scheme } else ref
  if ref.scheme ≠ "" ∨ ref.host ≠ "" ∨ ref.user.isSome then
    { url1 with path := resolvePathGo ref.path "" }
  else if ref.opq ≠ "" then
    { url1 with user := none, host := "", path := "" }
  else
    let url2 :=
      if ref.path = "" ∧ ¬ ref.forceQuery ∧ ref.rawQuery = "" then
        let u3 := { url1 with rawQuery := u.rawQuery }
        if ref.fragment = "" then { u3 with fragment := u.fragment } else u3
      else url1
    { url2 with host := u.host, user := u.user,
                path := resolvePathGo u.path ref.path }

/-! ## net/url Values (query manipulation) -/

abbrev GoValues := List (String × List String)

theorem listCut_rest_lt (c : Char) (x : Char) (xs : List Char) :
    ((listCut c (x :: xs)).2.1).length < (x :: xs).length := by
  induction xs generalizing x with
  | nil => simp [listCut]; split <;> simp
  | cons y ys ih =>
    simp only [listCut]
    split
    · simp
    · simpa using Nat.lt_trans (ih y) (by simp)

/-- Pair list of a raw query string, after net/url parseQuery: split on
ampersands; a part containing a semicolon is dropped (Go records an error and
continues), an empty part is skipped, otherwise cut at the first equals sign. -/
def parseQueryPairs : List Char → List (String × String)
  | [] => []
  | x :: xs =>
    let r := listCut '&' (x :: xs)
    let key := r.1
    let rest := r.2.1
    (if listContains ';' key then []
     else if key = [] then []
     else
       let kv := listCut '=' key
       [(String.mk kv.1, String.mk kv.2.1)]) ++ parseQueryPairs rest
termination_by cs => cs.length
decreasing_by exact listCut_rest_lt '&' x xs

/-- Build up url.Values: append the value to the key's slice. -/
def valuesAdd (m : GoValues) (k v : String) : GoValues :=
  match m with
  | [] => [(k, [v])]
  | (k1, vs) :: rest =>
    if k1 = k then (k1, vs ++ [v]) :: rest else (k1, vs) :: valuesAdd rest k v

def goParseQuery (s : String) : GoValues :=
  (parseQueryPairs s.data).foldl (fun m kv => valuesAdd m kv.1 kv.2) []

/-- url.Values.Set: the key maps to the one-element slice. -/
def valuesSet (m : GoValues) (k v : String) : GoValues :=
  match m with
  | [] => [(k, [v])]
  | (k1, vs) :: rest =>
    if k1 = k then (k1, [v]) :: rest else (k1, vs) :: valuesSet rest k v

/-- url.Values.Del. -/
def valuesDel (m : GoValues) (k : String) : GoValues :=
  m.filter (fun kv => kv.1 ≠ k)

/-- Insertion sort by key, modelling the key sort in url.Values.Encode. -/
def insertByKey (kv : String × List String) : GoValues → GoValues
  | [] => [kv]
  | h :: t => if kv.1 ≤ h.1 then kv :: h :: t else h :: insertByKey kv t

def sortByKey : GoValues → GoValues
  | [] => []
  | h :: t => insertByKey h (sortByKey t)

/-- url.Values.Encode (identity escaping): keys in sorted order, each value
yielding key=value, joined with ampersands. -/
def valuesEncode (m : GoValues) : String :=
  String.intercalate "&"
    ((sortByKey m).flatMap (fun kv => kv.2.map (fun v => kv.1 ++ "=" ++ v)))

/-! ## path.Clean and path.Join -/

/-- Stack pass of path.Clean; the stack is kept reversed (head is top). -/
def pathCleanAux (rooted : Bool) : List String → List String → List String
  | dst, [] => dst
  | dst, e :: rest =>
    if e = "" ∨ e = "." then pathCleanAux rooted dst rest
    else if e = ".." then
      match dst with
      | t :: ds =>
        if t = ".." then pathCleanAux rooted (".." :: t :: ds) rest
        else pathCleanAux rooted ds rest
      | [] =>
        if rooted then pathCleanAux rooted [] rest
        else pathCleanAux rooted [".."] rest
    else pathCleanAux rooted (e :: dst) rest

def pathClean (p : String) : String :=
  if p = "" then "."
  else
    let rooted := strStartsWithCh p '/'
    let segs := (listSplit '/' p.data).map String.mk
    let stack := (pathCleanAux rooted [] segs).reverse
    let joined := String.intercalate "/" stack
    if rooted then "/" ++ joined
    else if joined = "" then "." else joined

def pathJoin (elems : List String) : String :=
  let ne := elems.filter (fun e => e ≠ "")
  if ne = [] then "" else pathClean (String.intercalate "/" ne)

/-! ## Small strconv / fmt / regexp models -/

/-- Locate the first %d verb of a format string. -/
def findPctD : List Char → Option (List Char × List Char)
  | [] => none
  | '%' :: 'd' :: rest => some ([], rest)
  | c :: rest => (findPctD rest).map (fun ba => (c :: ba.1, ba.2))

/-- fmt.Sprintf restricted to a single %d verb (the page-format strings used
by the crawler configuration); a format without %d is returned unchanged. -/
def sprintfPageFmt (format : String) (n : Int) : String :=
  match findPctD format.data with
  | some (b, a) => String.mk b ++ toString n ++ String.mk a
  | none => format

def digitsToNat : List Char → Nat → Nat
  | [], acc => acc
  | c :: rest, acc => digitsToNat rest (acc * 10 + (c.toNat - '0'.toNat))

/-- strconv.Atoi on an optional sign followed by digits (overflow unmodelled:
the totals extracted by the crawler are far below 2^63). -/
def goAtoi (s : String) : Except String Int :=
  match s.data with
  | [] => .error "invalid syntax"
  | '-' :: ds =>
    if ds ≠ [] ∧ ds.all isAsciiDigit then .ok (-(digitsToNat ds 0 : Int))
    else .error "invalid syntax"
  | '+' :: ds =>
    if ds ≠ [] ∧ ds.all isAsciiDigit then .ok (digitsToNat ds 0 : Int)
    else .error "invalid syntax"
  | ds =>
    if ds.all isAsciiDigit then .ok (digitsToNat ds 0 : Int)
    else .error "invalid syntax"

def isDigitComma (c : Char) : Bool :=
  isAsciiDigit c ∨ c = ','

/-- FindString of the regular expression [0-9,]+ : the first maximal run of
digits and commas, or the empty string. -/
def findDigitCommaRun : List Char → List Char
  | [] => []
  | c :: rest =>
    if isDigitComma c then c :: rest.takeWhile isDigitComma
    else findDigitCommaRun rest

/-! ## github.com/google/uuid model -/

abbrev UUIDv := List Nat

def hexVal (c : Char) : Option Nat :=
  if '0' ≤ c ∧ c ≤ '9' then some (c.toNat - '0'.toNat)
  else if 'a' ≤ c ∧ c ≤ 'f' then some (c.toNat - 'a'.toNat + 10)
  else if 'A' ≤ c ∧ c ≤ 'F' then some (c.toNat - 'A'.toNat + 10)
  else none

/-- uuid xtob: a pair of hex digits to a byte. -/
def xtob (a b : Char) : Option Nat :=
  match hexVal a, hexVal b with
  | some x, some y => some (x * 16 + y)
  | _, _ => none

def uuidHexOffsets : List Nat :=
  [0, 2, 4, 6, 9, 11, 14, 16, 19, 21, 24, 26, 28, 30, 32, 34]

/-- The canonical xxxxxxxx-xxxx-xxxx-xxxx-xxxxxxxxxxxx body check of
uuid.Parse (positions beyond those listed are not inspected, as in Go). -/
def parseCanonicalUUID (cs : List Char) : Option UUIDv :=
  if cs.getD 8 ' ' = '-' ∧ cs.getD 13 ' ' = '-' ∧ cs.getD 18 ' ' = '-' ∧ cs.getD 23 ' ' = '-' then
    uuidHexOffsets.mapM (fun i => xtob (cs.getD i ' ') (cs.getD (i + 1) ' '))
  else none

/-- uuid.Parse: length 36 canonical, 45 with case-insensitive urn:uuid:
prelude, 38 with surrounding braces (Go only strips the first character), or
32 raw hex; every other length fails. -/
def uuidParse (s : String) : Option UUIDv :=
  if s.length = 36 then parseCanonicalUUID s.data
  else if s.length = 45 then
    if lowerStr (String.mk (s.data.take 9)) = "urn:uuid:" then
      parseCanonicalUUID (s.data.drop 9)
    else none
  else if s.length = 38 then parseCanonicalUUID (s.data.drop 1)
  else if s.length = 32 then
    (List.range 16).mapM (fun i => xtob (s.data.getD (2 * i) ' ') (s.data.getD (2 * i + 1) ' '))
  else none

def hexDigitCh (n : Nat) : Char :=
  if n < 10 then Char.ofNat ('0'.toNat + n) else Char.ofNat ('a'.toNat + n - 10)

def byteToHex (n : Nat) : String :=
  String.mk [hexDigitCh (n / 16 % 16), hexDigitCh (n % 16)]

def bytesToHex (l : List Nat) : String :=
  String.join (l.map byteToHex)

/-- uuid.UUID.String: 8-4-4-4-12 lowercase hex. -/
def uuidToString (u : UUIDv) : String :=
  bytesToHex (u.take 4) ++ "-" ++ bytesToHex ((u.drop 4).take 2) ++ "-" ++
  bytesToHex ((u.drop 6).take 2) ++ "-" ++ bytesToHex ((u.drop 8).take 2) ++ "-" ++
  bytesToHex (u.drop 10)

def uuid0 : UUIDv := List.replicate 16 0

/-! ## Domain model: internal/domain/model/crawl_job.go

CrawlJobStatus is a Go string type; the three constants below are its valid
values.  A CrawlJob carries a surrogate uuid, a parsed URL and a status. -/

def CrawlJobStatusPending : String := "PENDING"

def CrawlJobStatusSuccess : String := "SUCCESS"

def CrawlJobStatusFailed : String := "FAILED"

structure CrawlJob where
  id : UUIDv
  url : GoURL
  status : String
deriving DecidableEq, Repr

/-- CrawlJob.ID(): the uuid rendered canonically. -/
def jobID (j : CrawlJob) : String :=
  uuidToString j.id

/-- CrawlJob.URL(): the parsed URL rendered by net/url URL.String. -/
def jobURL (j : CrawlJob) : String :=
  urlToString j.url

/-- model.NewCrawlJob: url.ParseRequestURI the raw string; on success the job
gets a fresh uuid (passed in here, uuid.New() being a random source) and the
PENDING status. -/
def NewCrawlJob (newId : UUIDv) (rawURL : String) : Except String CrawlJob :=
  match parseRequestURI rawURL with
  | .error _ => .error "invalid URL"
  | .ok u => .ok { id := newId, url := u, status := CrawlJobStatusPending }

/-- model.Reconstruct: uuid.Parse the identifier, url.ParseRequestURI the raw
URL, then accept exactly the three known status strings. -/
def Reconstruct (id rawURL status : String) : Except String CrawlJob :=
  match uuidParse id with
  | none => .error "invalid ID"
  | some uid =>
    match parseRequestURI rawURL with
    | .error _ => .error "invalid URL"
    | .ok u =>
      if status = CrawlJobStatusPending then
        .ok { id := uid, url := u, status := CrawlJobStatusPending }
      else if status = CrawlJobStatusSuccess then
        .ok { id := uid, url := u, status := CrawlJobStatusSuccess }
      else if status = CrawlJobStatusFailed then
        .ok { id := uid, url := u, status := CrawlJobStatusFailed }
      else .error "invalid status"

/-- model.CrawlJob.ChangeStatus: for one of the three valid statuses the
receiver's status field is mutated and a fresh job value with the same id and
URL is returned; otherwise an error, receiver untouched.  The first component
is the receiver's post-state (the method has a pointer receiver). -/
def ChangeStatus (c : CrawlJob) (newStatus : String) : CrawlJob × Except String CrawlJob :=
  if newStatus = CrawlJobStatusPending ∨ newStatus = CrawlJobStatusSuccess ∨
      newStatus = CrawlJobStatusFailed then
    ({ c with status := newStatus },
     .ok { id := c.id, url := c.url, status := newStatus })
  else (c, .error "invalid status")

/-! ## Store and repository: internal/infra/crawl_job_client.go

The Redis key space is an association list; SET overwrites a key (modelled by
erasing it and consing the new binding), DEL erases it, EXISTS is key
membership.  countKey counts the bindings of one key. -/

structure CrawlJobRecord where
  id : String
  url : String
  status : String
deriving DecidableEq, Repr

/-- infra.ToRecord. -/
def ToRecord (j : CrawlJob) : CrawlJobRecord :=
  { id := jobID j, url := jobURL j, status := j.status }

abbrev Store := List (String × CrawlJobRecord)

def redisSet (db : Store) (k : String) (v : CrawlJobRecord) : Store :=
  (k, v) :: db.filter (fun kv => kv.1 ≠ k)

def redisDel (db : Store) (k : String) : Store :=
  db.filter (fun kv => kv.1 ≠ k)

def redisKeyExists (db : Store) (k : String) : Bool :=
  db.any (fun kv => kv.1 = k)

def countKey (db : Store) (k : String) : Nat :=
  (db.filter (fun kv => kv.1 = k)).length

/-- generatePendingJobKey: Sprintf "pending_job:%s". -/
def generatePendingJobKey (url : String) : String :=
  "pending_job:" ++ url

/-- generateSuccessJobKey: Sprintf "success_job: %s" (note the space after
the colon, present in the source). -/
def generateSuccessJobKey (url : String) : String :=
  "success_job: " ++ url

/-- generateFailedJobKey: Sprintf "failed_job: %s" (note the space after the
colon, present in the source). -/
def generateFailedJobKey (url : String) : String :=
  "failed_job: " ++ url

/-- generateJobKey: switch on the job's status. -/
def generateJobKey (job : CrawlJob) : Except String String :=
  if job.status = CrawlJobStatusPending then .ok (generatePendingJobKey (jobURL job))
  else if job.status = CrawlJobStatusSuccess then .ok (generateSuccessJobKey (jobURL job))
  else if job.status = CrawlJobStatusFailed then .ok (generateFailedJobKey (jobURL job))
  else .error "unsupported job status for key generation"

/-- crawlJobClient.Save: marshal the record (json.Marshal of a plain string
record cannot fail) and SET it under the job's key. -/
def repoSave (db : Store) (job : CrawlJob) : Except String Store :=
  match generateJobKey job with
  | .error e => .error e
  | .ok k => .ok (redisSet db k (ToRecord job))

/-- crawlJobClient.Delete: DEL the job's key. -/
def repoDelete (db : Store) (job : CrawlJob) : Except String Store :=
  match generateJobKey job with
  | .error e => .error e
  | .ok k => .ok (redisDel db k)

/-- crawlJobClient.Exists: EXISTS on the job's key. -/
def existsJob (db : Store) (job : CrawlJob) : Except String Bool :=
  match generateJobKey job with
  | .error e => .error e
  | .ok k => .ok (redisKeyExists db k)

/-! ## Configuration fragments used by the embedded use cases -/

inductive PaginationType where
  | query
  | path
  | segment
  | none
deriving DecidableEq, Repr

structure PaginationConfig where
  ptype : PaginationType
  paramIdentifier : String
  pageFormat : String
  start : Int
  perPage : Int
deriving DecidableEq, Repr

/-! ## Generator use case: internal/usecase/crawler.go (generateCrawlJobUseCase) -/

/-- generateCrawlJobUseCase.resolveURL: parse the target, parse the base, and
if the target is absolute return its serialization, else resolve it against
the base. -/
def resolveURL (baseURL targetURL : String) : Except String String :=
  match urlParse targetURL with
  | .error e => .error e
  | .ok parsedTarget =>
    match urlParse baseURL with
    | .error e => .error e
    | .ok parsedBase =>
      if isAbs parsedTarget then .ok (urlToString parsedTarget)
      else .ok (urlToString (resolveReference parsedBase parsedTarget))

/-- generateCrawlJobUseCase.extractTotalCount: FindString of [0-9,]+, drop
commas, strconv.Atoi. -/
def extractTotalCount (text : String) : Except String Int :=
  let m := findDigitCommaRun text.data
  if m = [] then .error "no number found in total count text"
  else
    match goAtoi (String.mk (m.filter (fun c => c ≠ ','))) with
    | .error _ => .error "total count conversion failed"
    | .ok n => .ok n

/-- generateCrawlJobUseCase.createCrawlJobByURL: construct the PENDING job,
skip if a record already exists for its key, otherwise Save it. -/
def createCrawlJobByURL (newId : UUIDv) (rawURL : String) (db : Store) : Except String Store :=
  match NewCrawlJob newId rawURL with
  | .error _ => .error "failed to create crawl job"
  | .ok job =>
    match existsJob db job with
    | .error _ => .error "failed to check crawl job existence"
    | .ok true => .ok db
    | .ok false =>
      match repoSave db job with
      | .error _ => .error "failed to save crawl job"
      | .ok db2 => .ok db2

/-- generateCrawlJobUseCase.buildPaginatedURL. -/
def buildPaginatedURL (pag : PaginationConfig) (baseURL : String) (page : Int) :
    Except String String :=
  match urlParse baseURL with
  | .error e => .error e
  | .ok u =>
    match pag.ptype with
    | .query =>
      let q := valuesSet (goParseQuery u.rawQuery) pag.paramIdentifier (toString page)
      .ok (urlToString { u with rawQuery := valuesEncode q })
    | .path =>
      let pageStr := sprintfPageFmt pag.pageFormat page
      .ok (urlToString { u with path := pathJoin [u.path, pag.paramIdentifier, pageStr] })
    | .segment =>
      let trimmed :=
        if strEndsWithCh u.path '/' then String.mk u.path.data.dropLast else u.path
      let pageStr := sprintfPageFmt pag.pageFormat page
      .ok (urlToString { u with path := trimmed ++ "/" ++ pag.paramIdentifier ++ pageStr })
    | .none => .ok baseURL

/-- Strip a trailing /identifier/digits from a path, replacing it by a slash
(the regexp replace of normalizeToPageOneURL for path pagination). -/
def stripPagePath (path id : String) : String :=
  let rev := path.data.reverse
  let digits := rev.takeWhile isAsciiDigit
  let rest := rev.drop digits.length
  let pat := ("/" ++ id ++ "/").data.reverse
  if digits ≠ [] ∧ listIsPre pat rest then
    String.mk ((rest.drop pat.length).reverse ++ ['/'])
  else path

/-- Strip a trailing /identifierdigits from a path, replacing it by a slash
(the regexp replace of normalizeToPageOneURL for segment pagination). -/
def stripPageSeg (path id : String) : String :=
  let rev := path.data.reverse
  let digits := rev.takeWhile isAsciiDigit
  let rest := rev.drop digits.length
  let pat := ("/" ++ id).data.reverse
  if digits ≠ [] ∧ listIsPre pat rest then
    String.mk ((rest.drop pat.length).reverse ++ ['/'])
  else path

/-- generateCrawlJobUseCase.normalizeToPageOneURL. -/
def normalizeToPageOneURL (pag : PaginationConfig) (rawURL : String) : String :=
  match urlParse rawURL with
  | .error _ => rawURL
  | .ok u =>
    match pag.ptype with
    | .path => urlToString { u with path := stripPagePath u.path pag.paramIdentifier }
    | .segment => urlToString { u with path := stripPageSeg u.path pag.paramIdentifier }
    | .query =>
      urlToString { u with rawQuery := valuesEncode (valuesDel (goParseQuery u.rawQuery) pag.paramIdentifier) }
    | .none => rawURL

/-- Iteration domain of the Go loop "for page := start; page <= last; page++". -/
def intRange (start last : Int) : List Int :=
  (List.range (last + 1 - start).toNat).map (fun (i : Nat) => start + (i : Int))

/-- Body fold of createJobsByTotalCount's page loop: per page build the
paginated URL, resolve it against the configured base URL, and submit it;
every failure is logged and skipped.  State: store, jobCount, and the number
of uuids drawn so far (uuid.New() is drawn inside each createCrawlJobByURL call). -/
def totalCountLoop (pag : PaginationConfig) (cfgBaseURL listBaseURL : String)
    (idGen : Nat → UUIDv) : List Int → Store → Int → Nat → Store × Int × Nat
  | [], db, jc, n => (db, jc, n)
  | page :: rest, db, jc, n =>
    match buildPaginatedURL pag listBaseURL page with
    | .error _ => totalCountLoop pag cfgBaseURL listBaseURL idGen rest db jc n
    | .ok pageURL =>
      match resolveURL cfgBaseURL pageURL with
      | .error _ => totalCountLoop pag cfgBaseURL listBaseURL idGen rest db jc n
      | .ok resolved =>
        match createCrawlJobByURL (idGen n) resolved db with
        | .error _ => totalCountLoop pag cfgBaseURL listBaseURL idGen rest db jc (n + 1)
        | .ok db2 => totalCountLoop pag cfgBaseURL listBaseURL idGen rest db2 (jc + 1) (n + 1)

/-- generateCrawlJobUseCase.createJobsByTotalCount: texts are the extracted
total-count texts (empty means error, more than one means warn and use the
first); the current URL is what the browser reports.  A zero page size is
rejected before the page count division; the page count is the rounding-up
division; the loop then runs from the configured start page. -/
def createJobsByTotalCount (pag : PaginationConfig) (cfgBaseURL : String)
    (idGen : Nat → UUIDv) (texts : List String) (currentURL : String) (db : Store) :
    Except String (Store × Int) :=
  match texts with
  | [] => .error "total count text not found"
  | text :: _ =>
    match extractTotalCount text with
    | .error _ => .error "failed to extract total count"
    | .ok totalCount =>
      if pag.perPage = 0 then .error "page size is zero"
      else
        let pageCount := Int.tdiv (totalCount + pag.perPage - 1) pag.perPage
        let baseURL := normalizeToPageOneURL pag currentURL
        let r := totalCountLoop pag cfgBaseURL baseURL idGen (intRange pag.start pageCount) db 0 0
        .ok (r.1, r.2.1)

/-! ## Executor use case: internal/usecase/crawler.go (executeCrawlJobUseCase) -/

/-- Per-call outcomes of the browser collaborator: whether Navigate succeeds
on a URL, whether GetHTML succeeds after navigating to a URL, and whether
SaveHTML succeeds for an artifact name. -/
structure BrowserFx where
  navigateOk : String → Bool
  getHTMLOk : String → Bool
  saveHTMLOk : String → Bool

/-- executeCrawlJobUseCase.processCrawl: navigate, optionally click the tab
(a click failure is only logged, no state effect), capture HTML, persist the artifact;
then Delete the job's current record and Save it back under SUCCESS. -/
def processCrawl (fx : BrowserFx) (job : CrawlJob) (db : Store) : Except String Store :=
  if ¬ fx.navigateOk (jobURL job) then .error "navigation failed"
  else if ¬ fx.getHTMLOk (jobURL job) then .error "get html failed"
  else if ¬ fx.saveHTMLOk (jobID job ++ ".html") then .error "save html failed"
  else
    match repoDelete db job with
    | .error e => .error e
    | .ok db1 =>
      match (ChangeStatus job CrawlJobStatusSuccess).2 with
      | .error e => .error e
      | .ok newJob => repoSave db1 newJob

/-- One element of the pending-job stream: a job or a per-record error. -/
abbrev CrawlJobStream := Except String CrawlJob

/-- Drain loop of ExecuteCrawlJob: a stream error increments failedJob and
continues; a processCrawl error increments failedJob — and the source then
increments successJob unconditionally — and continues; state is the store and
the two counters. -/
def execLoop (fx : BrowserFx) : List CrawlJobStream → Store → Nat → Nat → Store × Nat × Nat
  | [], db, succ, fail => (db, succ, fail)
  | r :: rest, db, succ, fail =>
    match r with
    | .error _ => execLoop fx rest db succ (fail + 1)
    | .ok job =>
      match processCrawl fx job db with
      | .error _ => execLoop fx rest db (succ + 1) (fail + 1)
      | .ok db2 => execLoop fx rest db2 (succ + 1) fail

/-- executeCrawlJobUseCase.ExecuteCrawlJob over an already-drained stream:
the loop never aborts and the function returns nil in every path; the result
carries the final store and totalProcessedJob. -/
def ExecuteCrawlJob (fx : BrowserFx) (results : List CrawlJobStream) (db : Store) :
    Except String (Store × Nat) :=
  let r := execLoop fx results db 0 0
  .ok (r.1, r.2.1 + r.2.2)

/-! ## General helpers for stating results -/

def exceptIsOk {ε α : Type} : Except ε α → Bool
  | .ok _ => true
  | .error _ => false

def exceptGetD {ε α : Type} : Except ε α → α → α
  | .ok a, _ => a
  | .error _, d => d

/-! ## Store lemmas -/

theorem filter_eq_after_erase (k : String) (db : Store) :
    (db.filter (fun kv => kv.1 ≠ k)).filter (fun kv => kv.1 = k) = [] := by
  induction db with
  | nil => rfl
  | cons hd tl ih =>
    by_cases h : hd.1 = k
    · simpa [h] using ih
    · simpa [h] using ih

theorem countKey_set_self (db : Store) (k : String) (v : CrawlJobRecord) :
    countKey (redisSet db k v) k = 1 := by
  have hnil := filter_eq_after_erase k db
  simp [countKey, redisSet, hnil]

theorem filter_and_erase (k k' : String) (db : Store) (h : k' ≠ k) :
    db.filter (fun a => decide (a.1 = k') && !decide (a.1 = k)) =
      db.filter (fun kv => kv.1 = k') := by
  have hkk : ¬ (k = k') := fun hh => h hh.symm
  induction db with
  | nil => rfl
  | cons hd tl ih =>
    by_cases h1 : hd.1 = k
    · have h2 : ¬ hd.1 = k' := by rw [h1]; exact hkk
      simp [List.filter_cons, h1, h2, ih, hkk]
    · by_cases h2 : hd.1 = k' <;> simp [List.filter_cons, h1, h2, ih, h, hkk]

theorem countKey_set_ne (db : Store) (k k' : String) (v : CrawlJobRecord) (h : k' ≠ k) :
    countKey (redisSet db k v) k' = countKey db k' := by
  have hkk : ¬ (k = k') := fun hh => h hh.symm
  simp [countKey, redisSet, hkk, filter_and_erase k k' db h]

theorem countKey_del_self (db : Store) (k : String) :
    countKey (redisDel db k) k = 0 := by
  have hnil := filter_eq_after_erase k db
  simp [countKey, redisDel, hnil]

theorem countKey_del_ne (db : Store) (k k' : String) (h : k' ≠ k) :
    countKey (redisDel db k) k' = countKey db k' := by
  simp [countKey, redisDel, filter_and_erase k k' db h]

theorem existsKey_iff_countKey (db : Store) (k : String) :
    redisKeyExists db k = true ↔ countKey db k ≠ 0 := by
  simp only [redisKeyExists, countKey]
  induction db with
  | nil => simp
  | cons hd tl ih =>
    by_cases h1 : hd.1 = k
    · simp [h1]
    · simpa [h1] using ih

theorem existsKey_set_self (db : Store) (k : String) (v : CrawlJobRecord) :
    redisKeyExists (redisSet db k v) k = true := by
  rw [existsKey_iff_countKey, countKey_set_self]
  simp

/-! ## Key-shape lemmas -/

theorem pending_ne_success_key (u : String) :
    generatePendingJobKey u ≠ generateSuccessJobKey u := by
  intro h
  have h2 := congrArg String.length h
  rw [show generatePendingJobKey u = "pending_job:" ++ u from rfl,
      show generateSuccessJobKey u = "success_job: " ++ u from rfl,
      String.length_append, String.length_append,
      show ("pending_job:" : String).length = 12 from rfl,
      show ("success_job: " : String).length = 13 from rfl] at h2
  omega

theorem pending_ne_failed_key (u : String) :
    generatePendingJobKey u ≠ generateFailedJobKey u := by
  intro h
  have h2 := congrArg (fun s => s.data) h
  simp only [generatePendingJobKey, generateFailedJobKey, String.data_append] at h2
  simp at h2

instance {ε α : Type} [DecidableEq ε] [DecidableEq α] : DecidableEq (Except ε α) :=
  fun a b =>
    match a, b with
    | .ok x, .ok y => decidable_of_iff (x = y) ⟨fun h => by rw [h], fun h => Except.ok.inj h⟩
    | .error x, .error y =>
      decidable_of_iff (x = y) ⟨fun h => by rw [h], fun h => Except.error.inj h⟩
    | .ok _, .error _ => isFalse (fun h => Except.noConfusion h)
    | .error _, .ok _ => isFalse (fun h => Except.noConfusion h)

/-! ## Concrete fixtures -/

def mkHostURL (h p : String) : GoURL :=
  { emptyGoURL with scheme := "https", host := h, path := p }

def jobSuccessCD : CrawlJob :=
  ⟨uuid0, mkHostURL "c" "/d", CrawlJobStatusSuccess⟩

/-! ## Claims -/

/-- Claim C10: for every CrawlJob and every target status among PENDING,
SUCCESS and FAILED, ChangeStatus succeeds regardless of the current status
(terminal ones included), mutates the receiver's status in place and returns
the new job value; for any other target status it returns an error and leaves
the receiver unchanged. -/
theorem change_status_frame (c : CrawlJob) (s : String) :
    ((s = CrawlJobStatusPending ∨ s = CrawlJobStatusSuccess ∨ s = CrawlJobStatusFailed) →
      ChangeStatus c s =
        ({ c with status := s }, .ok { id := c.id, url := c.url, status := s })) ∧
    ((s ≠ CrawlJobStatusPending ∧ s ≠ CrawlJobStatusSuccess ∧ s ≠ CrawlJobStatusFailed) →
      ChangeStatus c s = (c, .error "invalid status")) := by
  constructor
  · intro h
    unfold ChangeStatus
    rw [if_pos h]
  · intro h
    have hne : ¬ (s = CrawlJobStatusPending ∨ s = CrawlJobStatusSuccess ∨ s = CrawlJobStatusFailed) := by
      rintro (h1 | h2 | h3)
      · exact h.1 h1
      · exact h.2.1 h2
      · exact h.2.2 h3
    unfold ChangeStatus
    rw [if_neg hne]

/-- Witness for C10: a terminal job moves back to PENDING (receiver mutated,
new value returned), and an unknown status string is rejected with the
receiver unchanged. -/
theorem change_status_frame_witness :
    ChangeStatus ⟨uuid0, emptyGoURL, CrawlJobStatusSuccess⟩ CrawlJobStatusPending =
      (⟨uuid0, emptyGoURL, CrawlJobStatusPending⟩,
        .ok ⟨uuid0, emptyGoURL, CrawlJobStatusPending⟩) ∧
    ChangeStatus ⟨uuid0, emptyGoURL, CrawlJobStatusPending⟩ "DONE" =
      (⟨uuid0, emptyGoURL, CrawlJobStatusPending⟩, .error "invalid status") :=
  ⟨(change_status_frame _ _).1 (Or.inl rfl),
   (change_status_frame _ _).2 ⟨by decide, by decide, by decide⟩⟩

/-- Claim C5 counterexample: the key generated for a SUCCESS job over the URL
https://c/d is "success_job: https://c/d", which is NOT the prefix
"success_job:" immediately suffixed by the URL — there is a space after the
colon; likewise for FAILED.  (The pending key has no space.) -/
theorem key_namespace_cx :
    generateJobKey jobSuccessCD = .ok "success_job: https://c/d" ∧
    "success_job: https://c/d" ≠ "success_job:" ++ "https://c/d" ∧
    generateFailedJobKey "https://c/d" = "failed_job: https://c/d" ∧
    "failed_job: https://c/d" ≠ "failed_job:" ++ "https://c/d" := by
  decide

/-- Claim C5 (amended): the store key is "pending_job:" immediately followed
by the URL for PENDING jobs, while for SUCCESS and FAILED jobs it is the
status prefix, a space, and then the URL ("success_job: ", "failed_job: "). -/
theorem key_namespace_amended (job : CrawlJob) :
    (job.status = CrawlJobStatusPending →
      generateJobKey job = .ok ("pending_job:" ++ jobURL job)) ∧
    (job.status = CrawlJobStatusSuccess →
      generateJobKey job = .ok ("success_job: " ++ jobURL job)) ∧
    (job.status = CrawlJobStatusFailed →
      generateJobKey job = .ok ("failed_job: " ++ jobURL job)) := by
  refine ⟨fun h => ?_, fun h => ?_, fun h => ?_⟩ <;>
    simp [generateJobKey, h, CrawlJobStatusPending, CrawlJobStatusSuccess,
      CrawlJobStatusFailed, generatePendingJobKey, generateSuccessJobKey,
      generateFailedJobKey]

/-- Witness for the amended C5 at a concrete SUCCESS job. -/
theorem key_namespace_amended_witness :
    generateJobKey jobSuccessCD = .ok ("success_job: " ++ jobURL jobSuccessCD) ∧
    jobURL jobSuccessCD = "https://c/d" :=
  ⟨(key_namespace_amended jobSuccessCD).2.1 rfl, by decide⟩

/-- Claim C7: if the configured perPage is zero, createJobsByTotalCount
returns an error before computing the page count, for every extracted
totalCount (and every other input). -/
theorem per_page_zero_fail_fast (pag : PaginationConfig) (cfgBase : String)
    (idGen : Nat → UUIDv) (text : String) (ts : List String) (cur : String)
    (db : Store) (t : Int)
    (hx : extractTotalCount text = .ok t) (hp : pag.perPage = 0) :
    createJobsByTotalCount pag cfgBase idGen (text :: ts) cur db =
      .error "page size is zero" := by
  simp [createJobsByTotalCount, hx, hp]

def pagZero : PaginationConfig := ⟨.query, "page", "", 1, 0⟩

/-- Witness for C7 with totalCount 125 extracted from "125". -/
theorem per_page_zero_fail_fast_witness :
    createJobsByTotalCount pagZero "https://x" (fun _ => uuid0) ["125"] "https://x/l" [] =
      .error "page size is zero" :=
  per_page_zero_fail_fast pagZero "https://x" (fun _ => uuid0) "125" [] "https://x/l" []
    125 (by decide) rfl

/-! ## Unfolding helpers for the generator and executor paths -/

/-- createCrawlJobByURL in closed form, given that the URL parses: it is
guarded solely by existence of the pending key, and otherwise SETs the
pending record. -/
theorem createCrawlJobByURL_eq (newId : UUIDv) (rawURL : String) (db : Store) (u : GoURL)
    (hp : parseRequestURI rawURL = .ok u) :
    createCrawlJobByURL newId rawURL db =
      (if redisKeyExists db (generatePendingJobKey (urlToString u)) then .ok db
       else .ok (redisSet db (generatePendingJobKey (urlToString u))
                  (ToRecord ⟨newId, u, CrawlJobStatusPending⟩))) := by
  unfold createCrawlJobByURL NewCrawlJob existsJob generateJobKey repoSave
  rw [hp]
  by_cases hex : redisKeyExists db (generatePendingJobKey (urlToString u)) <;>
    simp [hex, jobURL, generateJobKey]

/-- NewCrawlJob in closed form given that the URL parses. -/
theorem NewCrawlJob_eq (newId : UUIDv) (rawURL : String) (u : GoURL)
    (hp : parseRequestURI rawURL = .ok u) :
    NewCrawlJob newId rawURL = .ok ⟨newId, u, CrawlJobStatusPending⟩ := by
  unfold NewCrawlJob
  rw [hp]

/-- processCrawl in closed form on the all-success path for a PENDING job:
Delete of the pending key followed by Save under the success key. -/
theorem processCrawl_success_eq (fx : BrowserFx) (job : CrawlJob) (db : Store)
    (hst : job.status = CrawlJobStatusPending)
    (hn : fx.navigateOk (jobURL job) = true)
    (hg : fx.getHTMLOk (jobURL job) = true)
    (hs : fx.saveHTMLOk (jobID job ++ ".html") = true) :
    processCrawl fx job db =
      .ok (redisSet (redisDel db (generatePendingJobKey (jobURL job)))
            (generateSuccessJobKey (jobURL job))
            (ToRecord ⟨job.id, job.url, CrawlJobStatusSuccess⟩)) := by
  unfold processCrawl repoDelete repoSave ChangeStatus generateJobKey
  simp only [jobURL] at hn hg hs
  simp [hn, hg, hs, hst, jobURL, CrawlJobStatusPending, CrawlJobStatusSuccess,
    generateJobKey]

/-! ## C1: idempotent enqueue -/

/-- Claim C1: submitting the same URL as a PENDING job twice through
createCrawlJobByURL leaves exactly one PENDING record for that URL (the
store being well formed, at most one binding per key); the second call's
Exists check returns true and its Save is skipped (the store is returned
unchanged). -/
theorem idempotent_enqueue (id1 id2 : UUIDv) (rawURL : String) (db : Store) (job : CrawlJob)
    (hnew : NewCrawlJob id1 rawURL = .ok job)
    (hwf : countKey db (generatePendingJobKey (jobURL job)) ≤ 1) :
    exceptIsOk (createCrawlJobByURL id1 rawURL db) = true ∧
    (∀ db1, createCrawlJobByURL id1 rawURL db = .ok db1 →
      countKey db1 (generatePendingJobKey (jobURL job)) = 1 ∧
      existsJob db1 ⟨id2, job.url, CrawlJobStatusPending⟩ = .ok true ∧
      createCrawlJobByURL id2 rawURL db1 = .ok db1) := by
  unfold NewCrawlJob at hnew
  cases hp : parseRequestURI rawURL with
  | error e =>
    rw [hp] at hnew
    exact absurd hnew (by simp)
  | ok u =>
    rw [hp] at hnew
    simp only [Except.ok.injEq] at hnew
    subst hnew
    simp only [jobURL] at hwf ⊢
    rw [createCrawlJobByURL_eq id1 rawURL db u hp]
    by_cases hex : redisKeyExists db (generatePendingJobKey (urlToString u))
    · rw [if_pos hex]
      refine ⟨rfl, fun db1 h1 => ?_⟩
      have hdb1 : db1 = db := (Except.ok.inj h1).symm
      subst hdb1
      have hpos : countKey db1 (generatePendingJobKey (urlToString u)) ≠ 0 :=
        (existsKey_iff_countKey db1 _).mp hex
      have hcnt : countKey db1 (generatePendingJobKey (urlToString u)) = 1 := by omega
      refine ⟨hcnt, ?_, ?_⟩
      · unfold existsJob generateJobKey
        simp [jobURL, hex]
      · rw [createCrawlJobByURL_eq id2 rawURL db1 u hp, if_pos hex]
    · rw [if_neg hex]
      refine ⟨rfl, fun db1 h1 => ?_⟩
      have hdb1 : db1 = redisSet db (generatePendingJobKey (urlToString u))
          (ToRecord ⟨id1, u, CrawlJobStatusPending⟩) := (Except.ok.inj h1).symm
      subst hdb1
      have hex1 : redisKeyExists
          (redisSet db (generatePendingJobKey (urlToString u))
            (ToRecord ⟨id1, u, CrawlJobStatusPending⟩))
          (generatePendingJobKey (urlToString u)) = true := existsKey_set_self _ _ _
      refine ⟨countKey_set_self _ _ _, ?_, ?_⟩
      · unfold existsJob generateJobKey
        simp [jobURL, hex1]
      · rw [createCrawlJobByURL_eq id2 rawURL _ u hp, if_pos hex1]

def uuid1 : UUIDv := List.replicate 16 1

def cdPendingJob : CrawlJob := ⟨uuid0, mkHostURL "c" "/d", CrawlJobStatusPending⟩

def c1db1 : Store :=
  [(generatePendingJobKey "https://c/d",
    ⟨uuidToString uuid0, "https://c/d", "PENDING"⟩)]

/-- Witness for C1: two submissions of https://c/d into the empty store; the
first call produces the single pending record and the second call leaves the
store unchanged with its Exists check true. -/
theorem idempotent_enqueue_witness :
    countKey c1db1 (generatePendingJobKey (jobURL cdPendingJob)) = 1 ∧
    existsJob c1db1 ⟨uuid1, cdPendingJob.url, CrawlJobStatusPending⟩ = .ok true ∧
    createCrawlJobByURL uuid1 "https://c/d" c1db1 = .ok c1db1 :=
  (idempotent_enqueue uuid0 uuid1 "https://c/d" [] cdPendingJob (by decide) (by decide)).2
    c1db1 (by decide)

/-! ## C4: scope of the duplicate-enqueue guard -/

def c4Store0 : Store :=
  [(generateSuccessJobKey "https://c/d",
    ⟨uuidToString uuid0, "https://c/d", "SUCCESS"⟩)]

/-- Claim C4 counterexample: a URL whose only record is under the SUCCESS key
is enqueued again — the guard does not consult the terminal keys.  The
initial store holds exactly one SUCCESS record for https://c/d, yet
createCrawlJobByURL saves a new PENDING record. -/
theorem enqueue_guard_pending_only_cx :
    countKey c4Store0 (generateSuccessJobKey "https://c/d") = 1 ∧
    exceptIsOk (createCrawlJobByURL uuid0 "https://c/d" c4Store0) = true ∧
    countKey (exceptGetD (createCrawlJobByURL uuid0 "https://c/d" c4Store0) [])
      (generatePendingJobKey "https://c/d") = 1 := by
  decide

/-- Claim C4 (amended): the Generator's enqueue is guarded by an existence
check against the PENDING key only; a URL with a PENDING record is not
enqueued again, while records under SUCCESS or FAILED do not prevent the
enqueue (the outcome depends only on the pending key, the rest of the store
being arbitrary). -/
theorem enqueue_guard_scope_amended (newId : UUIDv) (rawURL : String) (db : Store)
    (job : CrawlJob) (hnew : NewCrawlJob newId rawURL = .ok job) :
    (redisKeyExists db (generatePendingJobKey (jobURL job)) = true →
      createCrawlJobByURL newId rawURL db = .ok db) ∧
    (redisKeyExists db (generatePendingJobKey (jobURL job)) = false →
      createCrawlJobByURL newId rawURL db =
        .ok (redisSet db (generatePendingJobKey (jobURL job)) (ToRecord job))) := by
  unfold NewCrawlJob at hnew
  cases hp : parseRequestURI rawURL with
  | error e =>
    rw [hp] at hnew
    exact absurd hnew (by simp)
  | ok u =>
    rw [hp] at hnew
    simp only [Except.ok.injEq] at hnew
    subst hnew
    simp only [jobURL]
    rw [createCrawlJobByURL_eq newId rawURL db u hp]
    constructor
    · intro hex
      rw [if_pos hex]
    · intro hex
      rw [if_neg (by simp [hex])]

/-- Witness for the amended C4: with only a SUCCESS record present the
pending key is absent and the job is saved; with a PENDING record present the
call returns the store unchanged. -/
theorem enqueue_guard_scope_amended_witness :
    createCrawlJobByURL uuid0 "https://c/d" c4Store0 =
      .ok (redisSet c4Store0 (generatePendingJobKey (jobURL cdPendingJob))
        (ToRecord cdPendingJob)) ∧
    createCrawlJobByURL uuid0 "https://c/d" c1db1 = .ok c1db1 :=
  ⟨(enqueue_guard_scope_amended uuid0 "https://c/d" c4Store0 cdPendingJob (by decide)).2
      (by decide),
    (enqueue_guard_scope_amended uuid0 "https://c/d" c1db1 cdPendingJob (by decide)).1
      (by decide)⟩

/-! ## C2: status exclusivity on the success path -/

/-- Claim C2: for every PENDING job whose navigation, capture and persistence
all succeed, after processCrawl no record exists under the PENDING key for
the job's URL and exactly one SUCCESS record exists for it. -/
theorem status_exclusivity_success (fx : BrowserFx) (job : CrawlJob) (db : Store)
    (hst : job.status = CrawlJobStatusPending)
    (hn : fx.navigateOk (jobURL job) = true)
    (hg : fx.getHTMLOk (jobURL job) = true)
    (hs : fx.saveHTMLOk (jobID job ++ ".html") = true) :
    exceptIsOk (processCrawl fx job db) = true ∧
    (∀ db2, processCrawl fx job db = .ok db2 →
      countKey db2 (generatePendingJobKey (jobURL job)) = 0 ∧
      countKey db2 (generateSuccessJobKey (jobURL job)) = 1) := by
  rw [processCrawl_success_eq fx job db hst hn hg hs]
  refine ⟨rfl, fun db2 h2 => ?_⟩
  have hdb2 : db2 = redisSet (redisDel db (generatePendingJobKey (jobURL job)))
      (generateSuccessJobKey (jobURL job))
      (ToRecord ⟨job.id, job.url, CrawlJobStatusSuccess⟩) := (Except.ok.inj h2).symm
  subst hdb2
  constructor
  · rw [countKey_set_ne _ _ _ _ (pending_ne_success_key (jobURL job))]
    exact countKey_del_self _ _
  · exact countKey_set_self _ _ _

/-- Witness for C2 at a concrete PENDING job and a store holding its pending
record. -/
theorem status_exclusivity_success_witness :
    countKey (exceptGetD (processCrawl ⟨fun _ => true, fun _ => true, fun _ => true⟩
        cdPendingJob c1db1) [])
      (generatePendingJobKey (jobURL cdPendingJob)) = 0 ∧
    countKey (exceptGetD (processCrawl ⟨fun _ => true, fun _ => true, fun _ => true⟩
        cdPendingJob c1db1) [])
      (generateSuccessJobKey (jobURL cdPendingJob)) = 1 :=
  (status_exclusivity_success ⟨fun _ => true, fun _ => true, fun _ => true⟩
      cdPendingJob c1db1 rfl rfl rfl rfl).2
    (exceptGetD (processCrawl ⟨fun _ => true, fun _ => true, fun _ => true⟩
        cdPendingJob c1db1) [])
    (by decide)

/-! ## C3: executor failure handling -/

def uuid2 : UUIDv := List.replicate 16 2

def c3j1 : CrawlJob := ⟨uuid0, mkHostURL "s" "/1", CrawlJobStatusPending⟩

def c3j2 : CrawlJob := ⟨uuid1, mkHostURL "s" "/2", CrawlJobStatusPending⟩

def c3j3 : CrawlJob := ⟨uuid2, mkHostURL "s" "/3", CrawlJobStatusPending⟩

/-- Browser oracle for the C3 scenario: navigation fails exactly on the 2nd
job's URL; capture and persistence always succeed. -/
def c3fx : BrowserFx :=
  ⟨fun u => decide (u ≠ "https://s/2"), fun _ => true, fun _ => true⟩

def c3store0 : Store :=
  [(generatePendingJobKey "https://s/1", ToRecord c3j1),
   (generatePendingJobKey "https://s/2", ToRecord c3j2),
   (generatePendingJobKey "https://s/3", ToRecord c3j3)]

def c3run : Except String (Store × Nat) :=
  ExecuteCrawlJob c3fx [.ok c3j1, .ok c3j2, .ok c3j3] c3store0

def c3after : Store := (exceptGetD c3run ([], 0)).1

/-- Claim C3 counterexample: in a batch of 3 PENDING jobs where the 2nd fails
navigation, the drain completes without error and the 1st and 3rd transition
to SUCCESS — but NO FAILED record is inserted for the 2nd job (its PENDING
record simply remains): ExecuteCrawlJob only logs the failure. -/
theorem executor_no_failed_record_cx :
    exceptIsOk c3run = true ∧
    countKey c3after (generateFailedJobKey "https://s/2") = 0 ∧
    countKey c3after (generatePendingJobKey "https://s/2") = 1 ∧
    countKey c3after (generateSuccessJobKey "https://s/2") = 0 ∧
    countKey c3after (generateSuccessJobKey "https://s/1") = 1 ∧
    countKey c3after (generatePendingJobKey "https://s/1") = 0 ∧
    countKey c3after (generateSuccessJobKey "https://s/3") = 1 ∧
    countKey c3after (generatePendingJobKey "https://s/3") = 0 := by
  decide

/-- Claim C3 (amended): a failing job never aborts the batch — the drain
always completes without error, a navigation failure makes processCrawl
return an error with the store untouched (no FAILED record is inserted, the
PENDING record stays), and the loop simply moves on to the rest of the batch;
in the 3-job scenario with the 2nd failing navigation, the 1st and 3rd still
transition to SUCCESS. -/
theorem executor_failure_isolation_amended :
    (∀ (fx : BrowserFx) (results : List CrawlJobStream) (db : Store),
      exceptIsOk (ExecuteCrawlJob fx results db) = true) ∧
    (∀ (fx : BrowserFx) (job : CrawlJob) (db : Store),
      fx.navigateOk (jobURL job) = false →
        processCrawl fx job db = .error "navigation failed") ∧
    (∀ (fx : BrowserFx) (job : CrawlJob) (rest : List CrawlJobStream) (db : Store)
        (succ fail : Nat) (e : String),
      processCrawl fx job db = .error e →
        execLoop fx (.ok job :: rest) db succ fail =
          execLoop fx rest db (succ + 1) (fail + 1)) ∧
    (exceptIsOk c3run = true ∧
      countKey c3after (generateFailedJobKey "https://s/2") = 0 ∧
      countKey c3after (generatePendingJobKey "https://s/2") = 1 ∧
      countKey c3after (generateSuccessJobKey "https://s/1") = 1 ∧
      countKey c3after (generateSuccessJobKey "https://s/3") = 1) := by
  refine ⟨fun fx results db => rfl, fun fx job db h => ?_, fun fx job rest db succ fail e h => ?_, ?_⟩
  · unfold processCrawl
    simp [h]
  · show (match processCrawl fx job db with
      | .error _ => execLoop fx rest db (succ + 1) (fail + 1)
      | .ok db2 => execLoop fx rest db2 (succ + 1) fail) =
        execLoop fx rest db (succ + 1) (fail + 1)
    rw [h]
  · exact ⟨by decide, by decide, by decide, by decide, by decide⟩

/-- Witness for the amended C3: the 2nd job's navigation failure yields a
processCrawl error with the store unchanged, and the drain loop continues
with both counters bumped. -/
theorem executor_failure_isolation_amended_witness :
    processCrawl c3fx c3j2 c3store0 = .error "navigation failed" ∧
    execLoop c3fx [.ok c3j2] c3store0 0 0 = execLoop c3fx [] c3store0 1 1 :=
  ⟨executor_failure_isolation_amended.2.1 c3fx c3j2 c3store0 (by decide),
   executor_failure_isolation_amended.2.2.1 c3fx c3j2 [] c3store0 0 0 "navigation failed"
     (executor_failure_isolation_amended.2.1 c3fx c3j2 c3store0 (by decide))⟩

/-! ## C6: total-count page arithmetic -/

/-- The Go rounding-up division (totalCount + perPage - 1) / perPage equals
the rational ceiling of totalCount / perPage on the claim's domain. -/
theorem tdiv_ceil_eq (t p : Int) (ht : 0 ≤ t) (hp : 1 ≤ p) :
    Int.tdiv (t + p - 1) p = ⌈(t : ℚ) / (p : ℚ)⌉ := by
  have hp0 : (0 : ℤ) < p := by omega
  rw [Int.tdiv_eq_ediv (by omega) (by omega)]
  symm
  rw [Int.ceil_eq_iff]
  have hmod := Int.ediv_add_emod (t + p - 1) p
  have hm0 : 0 ≤ (t + p - 1) % p := Int.emod_nonneg _ (by omega)
  have hm1 : (t + p - 1) % p < p := Int.emod_lt_of_pos _ hp0
  have hm1' : (t + p - 1) % p ≤ p - 1 := by omega
  have hb1 : t ≤ ((t + p - 1) / p) * p := by nlinarith [hmod]
  have hb2 : (((t + p - 1) / p) - 1) * p < t := by nlinarith [hmod]
  have hpq : (0 : ℚ) < (p : ℚ) := by exact_mod_cast hp0
  constructor
  · rw [show ((((t + p - 1) / p : ℤ) : ℚ) - 1) = (((t + p - 1) / p - 1 : ℤ) : ℚ) by push_cast; ring]
    rw [lt_div_iff₀ hpq]
    exact_mod_cast hb2
  · rw [div_le_iff₀ hpq]
    exact_mod_cast hb1

/-- Membership in the loop iteration domain is exactly the interval
start..last. -/
theorem intRange_mem (s e : Int) (k : Int) : k ∈ intRange s e ↔ s ≤ k ∧ k ≤ e := by
  simp only [intRange, List.mem_map]
  constructor
  · rintro ⟨i, hi, rfl⟩
    rw [List.mem_range] at hi
    omega
  · rintro ⟨h1, h2⟩
    exact ⟨(k - s).toNat, List.mem_range.mpr (by omega), by omega⟩

/-- Claim C6: with a parsed totalCount at least 0 and perPage at least 1,
createJobsByTotalCount computes pageCount as the rounding-up division — the
ceiling of totalCount / perPage — and runs the page loop exactly over the
indices start through pageCount inclusive; in particular for totalCount 125,
perPage 50, start 1 the page indices are 1, 2, 3. -/
theorem total_count_page_arithmetic (pag : PaginationConfig) (cfgBase : String)
    (idGen : Nat → UUIDv) (text : String) (ts : List String) (cur : String)
    (db : Store) (t : Int)
    (hx : extractTotalCount text = .ok t) (ht : 0 ≤ t) (hp : 1 ≤ pag.perPage) :
    createJobsByTotalCount pag cfgBase idGen (text :: ts) cur db =
      .ok ((totalCountLoop pag cfgBase (normalizeToPageOneURL pag cur) idGen
              (intRange pag.start (Int.tdiv (t + pag.perPage - 1) pag.perPage)) db 0 0).1,
           (totalCountLoop pag cfgBase (normalizeToPageOneURL pag cur) idGen
              (intRange pag.start (Int.tdiv (t + pag.perPage - 1) pag.perPage)) db 0 0).2.1) ∧
    Int.tdiv (t + pag.perPage - 1) pag.perPage = ⌈(t : ℚ) / (pag.perPage : ℚ)⌉ ∧
    (∀ k : Int, k ∈ intRange pag.start (Int.tdiv (t + pag.perPage - 1) pag.perPage) ↔
      pag.start ≤ k ∧ k ≤ Int.tdiv (t + pag.perPage - 1) pag.perPage) ∧
    intRange 1 (Int.tdiv (125 + 50 - 1) 50) = [1, 2, 3] := by
  refine ⟨?_, tdiv_ceil_eq t pag.perPage ht hp, fun k => intRange_mem _ _ k, by decide⟩
  show (match extractTotalCount text with
    | .error _ => (.error "failed to extract total count" : Except String (Store × Int))
    | .ok totalCount =>
      if pag.perPage = 0 then .error "page size is zero"
      else
        let pageCount := (totalCount + pag.perPage - 1).tdiv pag.perPage
        let baseURL := normalizeToPageOneURL pag cur
        let r := totalCountLoop pag cfgBase baseURL idGen (intRange pag.start pageCount) db 0 0
        .ok (r.1, r.2.1)) = _
  rw [hx]
  simp [show ¬ (pag.perPage = 0) by omega]

def pag50 : PaginationConfig := ⟨.query, "page", "", 1, 50⟩

/-- Witness for C6 at totalCount 125, perPage 50, start 1. -/
theorem total_count_page_arithmetic_witness :
    Int.tdiv (125 + pag50.perPage - 1) pag50.perPage = ⌈(125 : ℚ) / (pag50.perPage : ℚ)⌉ ∧
    (2 : Int) ∈ intRange pag50.start (Int.tdiv (125 + pag50.perPage - 1) pag50.perPage) ∧
    intRange 1 (Int.tdiv (125 + 50 - 1) 50) = [1, 2, 3] := by
  have h := total_count_page_arithmetic pag50 "https://x" (fun _ => uuid0) "125件" []
    "https://x/jobs" [] 125 (by decide) (by decide) (by decide)
  exact ⟨h.2.1, (h.2.2.1 2).mpr ⟨by decide, by decide⟩, h.2.2.2⟩

/-! ## C8: construction and reconstruction validity -/

/-- If a string does not start with a character, neither does its dropLast. -/
theorem startsCh_dropLast_false (s : String) (c : Char)
    (h : strStartsWithCh s c = false) :
    strStartsWithCh (String.mk s.data.dropLast) c = false := by
  cases hd : s.data with
  | nil => simp [strStartsWithCh]
  | cons x xs =>
    rw [strStartsWithCh, hd] at h
    cases xs with
    | nil => simp [strStartsWithCh]
    | cons y ys =>
      simp only [List.dropLast]
      rw [strStartsWithCh]
      simpa using h

/-- If a string does not start with a character, neither does the part of it
before the first occurrence of a separator. -/
theorem startsCh_cut_false (s : String) (sep c : Char)
    (h : strStartsWithCh s c = false) :
    strStartsWithCh (strCut s sep).1 c = false := by
  rw [strCut]
  cases hd : s.data with
  | nil => simp [listCut, strStartsWithCh]
  | cons x xs =>
    rw [strStartsWithCh, hd] at h
    rw [listCut]
    by_cases hx : x = sep
    · simp [hx, strStartsWithCh]
    · simpa [hx, strStartsWithCh] using h

def urlCareers : GoURL := { emptyGoURL with path := "/careers" }

/-- Claim C8 counterexample: "/careers" is not an absolute URL (it parses
with an empty scheme), yet NewCrawlJob accepts it — url.ParseRequestURI also
admits rooted (absolute-path) references, so construction success does not
imply absoluteness. -/
theorem construction_rooted_path_cx :
    parseRequestURI "/careers" = .ok urlCareers ∧
    urlCareers.scheme = "" ∧
    NewCrawlJob uuid0 "/careers" = .ok ⟨uuid0, urlCareers, CrawlJobStatusPending⟩ := by
  decide

/-- Claim C8 (amended): construction succeeds only for strings accepted by
Go request-URI parsing — absolute URIs, rooted path references, or "*" — and
fails for every string that has no scheme, does not start with a slash and is
not "*"; rooted references such as "/careers" are accepted (so success does
not imply the URL is absolute).  Reconstruction fails for every malformed
identifier and for every unknown status string. -/
theorem construction_reconstruction_amended :
    (∀ (newId : UUIDv) (s : String),
      getSchemeGo s = .ok ("", s) → strStartsWithCh s '/' = false → s ≠ "*" →
        exceptIsOk (NewCrawlJob newId s) = false) ∧
    (∀ newId : UUIDv,
      NewCrawlJob newId "/careers" = .ok ⟨newId, urlCareers, CrawlJobStatusPending⟩) ∧
    (∀ id url st, uuidParse id = none → exceptIsOk (Reconstruct id url st) = false) ∧
    (∀ id url st, st ≠ CrawlJobStatusPending → st ≠ CrawlJobStatusSuccess →
      st ≠ CrawlJobStatusFailed → exceptIsOk (Reconstruct id url st) = false) := by
  refine ⟨?_, ?_, ?_, ?_⟩
  · intro newId s hsch hsl hstar
    unfold NewCrawlJob parseRequestURI parseGo
    by_cases hctl : containsCTLByte s
    · simp [hctl, exceptIsOk]
    · by_cases hemp : s = ""
      · subst hemp
        rfl
      · have hq1 : strStartsWithCh (String.mk s.data.dropLast) '/' = false :=
          startsCh_dropLast_false s '/' hsl
        have hq2 : strStartsWithCh (strCut s '?').1 '/' = false :=
          startsCh_cut_false s '?' '/' hsl
        simp [hctl, hemp, hstar, hsch, lowerStr, exceptIsOk]
        by_cases hq : (strEndsWithCh s '?' = true ∧ strContains (String.mk s.data.dropLast) '?' = false)
        · simp [hq, hq1]
        · simp [hq, hq2]
  · intro newId
    exact NewCrawlJob_eq newId "/careers" urlCareers (by decide)
  · intro id url st h
    unfold Reconstruct
    rw [h]
    rfl
  · intro id url st h1 h2 h3
    unfold Reconstruct
    cases hu : uuidParse id with
    | none => rfl
    | some uid =>
      cases hp : parseRequestURI url with
      | error e => rfl
      | ok u => simp [h1, h2, h3, exceptIsOk]

/-- Witness for the amended C8: "foo" (no scheme, not rooted) is rejected,
"/careers" is accepted, a malformed uuid is rejected, and the unknown status
"DONE" is rejected. -/
theorem construction_reconstruction_amended_witness :
    exceptIsOk (NewCrawlJob uuid0 "foo") = false ∧
    NewCrawlJob uuid0 "/careers" = .ok ⟨uuid0, urlCareers, CrawlJobStatusPending⟩ ∧
    exceptIsOk (Reconstruct "zzz" "https://c/d" "PENDING") = false ∧
    exceptIsOk (Reconstruct "00000000-0000-0000-0000-000000000000" "https://c/d" "DONE") = false :=
  ⟨construction_reconstruction_amended.1 uuid0 "foo" (by decide) (by decide) (by decide),
   construction_reconstruction_amended.2.1 uuid0,
   construction_reconstruction_amended.2.2.1 "zzz" "https://c/d" "PENDING" (by decide),
   construction_reconstruction_amended.2.2.2 "00000000-0000-0000-0000-000000000000"
     "https://c/d" "DONE" (by decide) (by decide) (by decide)⟩

/-! ## C9: resolver absolute passthrough -/

/-- Claim C9 counterexample: an absolute target is NOT returned unchanged in
general — url.Parse lowercases the scheme, so resolveURL returns the
canonical serialization "https://c/d" for the target "HTTPS://c/d". -/
theorem resolver_scheme_lowercase_cx :
    resolveURL "https://a/b" "HTTPS://c/d" = .ok "https://c/d" ∧
    "https://c/d" ≠ "HTTPS://c/d" := by
  decide

/-- Claim C9 (amended): when the target parses as absolute, resolveURL
returns the serialization of the parsed target — equal to the target
whenever it is already canonical, as in the claim's instance — independently
of the base (which must itself parse); a relative target is resolved against
the base by net/url reference resolution (e.g. "../d" against
"https://a/b/c" gives "https://a/d"); and the function fails exactly when
one of the inputs does not parse. -/
theorem resolver_passthrough_amended :
    (∀ (base target : String) (t b : GoURL),
      urlParse target = .ok t → isAbs t = true → urlParse base = .ok b →
        resolveURL base target = .ok (urlToString t)) ∧
    (∀ (base target : String) (t b : GoURL),
      urlParse target = .ok t → isAbs t = false → urlParse base = .ok b →
        resolveURL base target = .ok (urlToString (resolveReference b t))) ∧
    (∀ (base target : String) (e : String),
      urlParse target = .error e → resolveURL base target = .error e) ∧
    (∀ (base target : String) (t : GoURL) (e : String),
      urlParse target = .ok t → urlParse base = .error e →
        resolveURL base target = .error e) ∧
    resolveURL "https://a/b" "https://c/d" = .ok "https://c/d" ∧
    resolveURL "https://a/b/c" "../d" = .ok "https://a/d" := by
  refine ⟨?_, ?_, ?_, ?_, by decide, by decide⟩
  · intro base target t b ht habs hb
    simp [resolveURL, ht, hb, habs]
  · intro base target t b ht habs hb
    simp [resolveURL, ht, hb, habs]
  · intro base target e ht
    simp [resolveURL, ht]
  · intro base target t e ht hb
    simp [resolveURL, ht, hb]

/-- Witness for the amended C9 at the claim's concrete instance. -/
theorem resolver_passthrough_amended_witness :
    resolveURL "https://a/b" "https://c/d" = .ok (urlToString (mkHostURL "c" "/d")) ∧
    urlToString (mkHostURL "c" "/d") = "https://c/d" :=
  ⟨resolver_passthrough_amended.1 "https://a/b" "https://c/d"
      (mkHostURL "c" "/d") (mkHostURL "a" "/b") (by decide) (by decide) (by decide),
   by decide⟩
